import Mathlib

/-!
Verification of the analytics / forecasting engine of the finance-tracker
repository (`src/ml/recommender.py`), as a shallow embedding in Lean.

Modelling conventions:
* a `Transaction` carries the columns the engine reads (`date` split into
  year / month / day, `amount`, `ttype`, `category`); the `user_id`-keyed
  database query is replaced by an explicit transaction list argument;
* Python floats are modelled as exact rationals (`ℚ`); decimal literals such
  as `1.2` and `0.2` are read as the rationals `12/10` and `2/10`;
* the pandas month token `'YYYY-MM'` (whose lexicographic order coincides
  with chronological order) is modelled by the natural number
  `year * 100 + month`, which has the same order;
* pandas `groupby` (which sorts its keys ascending) and
  `sort_values(ascending=False)` are modelled with `List.insertionSort`
  over deduplicated keys;
* `sklearn.linear_model.LinearRegression` on a one-feature design matrix is
  the ordinary least-squares line; it is embedded as the closed-form
  normal-equations solution, computed in exact arithmetic;
* the recommendation strings are modelled by an inductive type with one
  constructor per f-string template, carrying the interpolated payloads
  (exact values, prior to decimal formatting);
* operations that can fail at runtime (division, `iloc[-1]` indexing,
  fitting) additionally get `Option`-valued "checked" variants used to state
  the no-exception claims.
-/

set_option maxRecDepth 100000

/-- A transaction record as the engine reads it: the `date` column split into
year/month/day, the non-negative `amount`, the `ttype` (`"income"` or
`"expense"`), and the `category` label (models `Transaction` of
`src/models.py` restricted to the columns `_query_user_df` selects). -/
structure Transaction where
  year : ℕ
  month : ℕ
  day : ℕ
  amount : ℚ
  ttype : String
  category : String
deriving DecidableEq

/-- The `'YYYY-MM'` month token `expenses['date'].dt.to_period('M').astype(str)`,
modelled as `year * 100 + month` (same order as the string token). -/
def ymKey (t : Transaction) : ℕ := t.year * 100 + t.month

/-- The row predicate of `df[df['type']=='expense']`. -/
def isExpense (t : Transaction) : Bool := t.ttype == "expense"

/-- `df[df['type']=='expense']`: the expense rows, in input order. -/
def expenses (txs : List Transaction) : List Transaction := txs.filter isExpense

/-- One group total of `expenses.groupby('ym')['amount'].sum()`: the summed
expense amount of the month with key `k`. -/
def monthTotal (txs : List Transaction) (k : ℕ) : ℚ :=
  (((expenses txs).filter (fun t => ymKey t == k)).map Transaction.amount).sum

/-- The distinct month keys of the expense rows, sorted ascending (pandas
`groupby` sorts its group keys). -/
def monthKeys (txs : List Transaction) : List ℕ :=
  List.insertionSort (· ≤ ·) ((expenses txs).map ymKey).dedup

/-- The monthly expense series `m = expenses.groupby('ym')['amount'].sum()`:
`(month key, month total)` pairs in ascending key order. -/
def monthlySeries (txs : List Transaction) : List (ℕ × ℚ) :=
  (monthKeys txs).map (fun k => (k, monthTotal txs k))

/-- `series.iloc[-1]` on the second components, with `0` for the (guarded
against) empty case. -/
def lastSnd (l : List (ℕ × ℚ)) : ℚ :=
  match l.getLast? with
  | some p => p.2
  | none => 0

/-- The closed-form ordinary least-squares fit of `ys` against the positional
indices `1, 2, …, n` (`m['idx'] = range(1, len(m)+1)`), evaluated at `n + 1`:
what `LinearRegression().fit(X, y)` followed by `model.predict([[next_idx]])`
computes (sklearn solves the same least-squares problem; here in exact
arithmetic). -/
def olsPredictNext (ys : List ℚ) : ℚ :=
  let n : ℚ := ys.length
  let xs : List ℚ := (List.range ys.length).map (fun i : ℕ => (i : ℚ) + 1)
  let sx := xs.sum
  let sy := ys.sum
  let sxy := ((xs.zip ys).map (fun p => p.1 * p.2)).sum
  let sxx := (xs.map (fun x => x * x)).sum
  let slope := (n * sxy - sx * sy) / (n * sxx - sx * sx)
  let intercept := (sy - slope * sx) / n
  intercept + slope * (n + 1)

/-- `predict_next_month_expense` of `src/ml/recommender.py`, over an explicit
transaction list in place of the `user_id` database query. -/
def predict_next_month_expense (txs : List Transaction) : ℚ :=
  if txs = [] then 0
  else if expenses txs = [] then 0
  else
    let m := monthlySeries txs
    if m.length < 2 then lastSnd m
    else max (olsPredictNext (m.map Prod.snd)) 0

/-- `total_income = df[df['type']=='income']['amount'].sum()`. -/
def totalIncome (txs : List Transaction) : ℚ :=
  ((txs.filter (fun t => t.ttype == "income")).map Transaction.amount).sum

/-- `total_expense = df[df['type']=='expense']['amount'].sum()`. -/
def totalExpense (txs : List Transaction) : ℚ :=
  ((expenses txs).map Transaction.amount).sum

/-- One group total of the per-category grouping: summed expense amount of
category `c`. -/
def catTotal (txs : List Transaction) (c : String) : ℚ :=
  (((expenses txs).filter (fun t => t.category == c)).map Transaction.amount).sum

/-- The distinct category labels of the expense rows, sorted ascending (pandas
`groupby` sorts its group keys). -/
def catKeys (txs : List Transaction) : List String :=
  List.insertionSort (· ≤ ·) ((expenses txs).map Transaction.category).dedup

/-- `cat = df[...].groupby('category')['amount'].sum().sort_values(ascending=False)`:
per-category expense totals sorted by descending amount. -/
def catSeries (txs : List Transaction) : List (String × ℚ) :=
  List.insertionSort (fun p q => q.2 ≤ p.2)
    ((catKeys txs).map (fun c => (c, catTotal txs c)))

/-- `top3 = cat.head(3)`. -/
def top3 (txs : List Transaction) : List (String × ℚ) := (catSeries txs).take 3

/-- The recommendation strings of `generate_recommendations`, one constructor
per f-string template, carrying the interpolated payloads (exact values,
prior to decimal formatting of the rendered string). -/
inductive RecMsg where
  | addDataGuard : RecMsg
  | savingsRate (rate : ℚ) : RecMsg
  | addIncomeForRate : RecMsg
  | highSpend (category : String) (total : ℚ) : RecMsg
  | volatilityWarning : RecMsg
  | predictedWithTarget (pred target : ℚ) : RecMsg
  | predictedAddIncome (pred : ℚ) : RecMsg
deriving DecidableEq

/-- Rule 2 of `generate_recommendations` (savings rate / add-income prompt). -/
def savingsPart (txs : List Transaction) : List RecMsg :=
  if 0 < totalIncome txs then
    [RecMsg.savingsRate (max ((totalIncome txs - totalExpense txs) / totalIncome txs) 0)]
  else [RecMsg.addIncomeForRate]

/-- Rule 3 of `generate_recommendations` (top-3 spend categories). -/
def catsPart (txs : List Transaction) : List RecMsg :=
  (top3 txs).map (fun p => RecMsg.highSpend p.1 p.2)

/-- The volatility condition: the most recent month's total strictly exceeds
`1.2 ×` the mean of all prior months' totals. -/
def volCond (monthly : List (ℕ × ℚ)) : Prop :=
  (12 : ℚ) / 10 * (((monthly.dropLast.map Prod.snd).sum /
    ((monthly.dropLast.map Prod.snd).length : ℚ))) < lastSnd monthly

instance (monthly : List (ℕ × ℚ)) : Decidable (volCond monthly) := by
  unfold volCond; infer_instance

/-- Rule 4 of `generate_recommendations` (volatility check). -/
def volPart (txs : List Transaction) : List RecMsg :=
  if expenses txs = [] then []
  else if 2 ≤ (monthlySeries txs).length then
    if volCond (monthlySeries txs) then [RecMsg.volatilityWarning] else []
  else []

/-- Rule 5 of `generate_recommendations` (forecast-informed target). -/
def forePart (txs : List Transaction) : List RecMsg :=
  if 0 < totalIncome txs then
    [RecMsg.predictedWithTarget (predict_next_month_expense txs)
      (max (totalIncome txs * (2 / 10)) 0)]
  else [RecMsg.predictedAddIncome (predict_next_month_expense txs)]

/-- `generate_recommendations` of `src/ml/recommender.py`, over an explicit
transaction list in place of the `user_id` database query; each rule block of
the Python body is one `…Part` definition, appended in the source order. -/
def generate_recommendations (txs : List Transaction) : List RecMsg :=
  if txs = [] then [RecMsg.addDataGuard]
  else savingsPart txs ++ catsPart txs ++ volPart txs ++ forePart txs

/-- Division that reports rather than absorbs a zero denominator, used by the
checked variants that model runtime failure. -/
def checkedDiv (a b : ℚ) : Option ℚ := if b = 0 then none else some (a / b)

/-- `olsPredictNext` with every division checked. -/
def olsPredictNextChecked (ys : List ℚ) : Option ℚ :=
  let n : ℚ := ys.length
  let xs : List ℚ := (List.range ys.length).map (fun i : ℕ => (i : ℚ) + 1)
  let sx := xs.sum
  let sy := ys.sum
  let sxy := ((xs.zip ys).map (fun p => p.1 * p.2)).sum
  let sxx := (xs.map (fun x => x * x)).sum
  match checkedDiv (n * sxy - sx * sy) (n * sxx - sx * sx) with
  | none => none
  | some slope =>
    match checkedDiv (sy - slope * sx) n with
    | none => none
    | some intercept => some (intercept + slope * (n + 1))

/-- `predict_next_month_expense` with divisions and `iloc[-1]` indexing
checked: `none` models a raised exception. -/
def predictChecked (txs : List Transaction) : Option ℚ :=
  if txs = [] then some 0
  else if expenses txs = [] then some 0
  else
    let m := monthlySeries txs
    if m.length < 2 then (m.getLast?).map Prod.snd
    else (olsPredictNextChecked (m.map Prod.snd)).map (fun p => max p 0)

/-- `savingsPart` with the savings-rate division checked. -/
def savingsPartChecked (txs : List Transaction) : Option (List RecMsg) :=
  if 0 < totalIncome txs then
    (checkedDiv (totalIncome txs - totalExpense txs) (totalIncome txs)).map
      (fun r => [RecMsg.savingsRate (max r 0)])
  else some [RecMsg.addIncomeForRate]

/-- `volPart` with the `iloc[-1]` indexing and the prior-mean division
checked. -/
def volPartChecked (txs : List Transaction) : Option (List RecMsg) :=
  if expenses txs = [] then some []
  else if 2 ≤ (monthlySeries txs).length then
    match (monthlySeries txs).getLast? with
    | none => none
    | some lastP =>
      match checkedDiv ((monthlySeries txs).dropLast.map Prod.snd).sum
          ((((monthlySeries txs).dropLast.map Prod.snd).length : ℚ)) with
      | none => none
      | some priorAvg =>
        some (if (12 : ℚ) / 10 * priorAvg < lastP.2 then [RecMsg.volatilityWarning] else [])
  else some []

/-- `forePart` on top of the checked forecast. -/
def forePartChecked (txs : List Transaction) : Option (List RecMsg) :=
  match predictChecked txs with
  | none => none
  | some pred =>
    some (if 0 < totalIncome txs then
        [RecMsg.predictedWithTarget pred (max (totalIncome txs * (2 / 10)) 0)]
      else [RecMsg.predictedAddIncome pred])

/-- `generate_recommendations` with divisions and `iloc[-1]` indexing checked:
`none` models a raised exception. -/
def generateRecommendationsChecked (txs : List Transaction) : Option (List RecMsg) :=
  if txs = [] then some [RecMsg.addDataGuard]
  else
    match savingsPartChecked txs, volPartChecked txs, forePartChecked txs with
    | some s, some v, some f => some (s ++ catsPart txs ++ v ++ f)
    | _, _, _ => none

/-- The points `(1, ys 0), (2, ys 1), …` a positional-index regression fits. -/
def idxPoints (ys : List ℚ) : List (ℚ × ℚ) :=
  ((List.range ys.length).map (fun i : ℕ => (i : ℚ) + 1)).zip ys

/-- `Σ x` over a list of sample points. -/
def sumX (pts : List (ℚ × ℚ)) : ℚ := (pts.map Prod.fst).sum

/-- `Σ y` over a list of sample points. -/
def sumY (pts : List (ℚ × ℚ)) : ℚ := (pts.map Prod.snd).sum

/-- `Σ x·y` over a list of sample points. -/
def sumXY (pts : List (ℚ × ℚ)) : ℚ := (pts.map (fun p => p.1 * p.2)).sum

/-- `Σ x²` over a list of sample points. -/
def sumXX (pts : List (ℚ × ℚ)) : ℚ := (pts.map (fun p => p.1 * p.1)).sum

/-- `Σ y²` over a list of sample points. -/
def sumYY (pts : List (ℚ × ℚ)) : ℚ := (pts.map (fun p => p.2 * p.2)).sum

/-- The normal-equations determinant `n·Σx² − (Σx)²`. -/
def olsDet (pts : List (ℚ × ℚ)) : ℚ :=
  (pts.length : ℚ) * sumXX pts - sumX pts * sumX pts

/-- Spec-side ordinary least-squares slope over a list of sample points:
the two-parameter closed form "slope and intercept from sums of `x`, `y`,
`xy`, `x²`" of the specification. -/
def olsSlope (pts : List (ℚ × ℚ)) : ℚ :=
  ((pts.length : ℚ) * sumXY pts - sumX pts * sumY pts) / olsDet pts

/-- Spec-side ordinary least-squares intercept over a list of sample points. -/
def olsIntercept (pts : List (ℚ × ℚ)) : ℚ :=
  (sumY pts - olsSlope pts * sumX pts) / (pts.length : ℚ)

/-- Spec-side forecast, written from the specification's words: fit an
ordinary least-squares line of the series values against the positional
index `1..n` and predict the value at index `n + 1`. -/
def specOLSForecast (ys : List ℚ) : ℚ :=
  olsSlope (idxPoints ys) * ((ys.length : ℚ) + 1) + olsIntercept (idxPoints ys)

/-- Sum of squared residuals of the line `y = a·x + b` against the sample
points: the objective ordinary least squares minimizes. -/
def ssr (pts : List (ℚ × ℚ)) (a b : ℚ) : ℚ :=
  (pts.map (fun p => (p.2 - (a * p.1 + b)) ^ 2)).sum

/-- The number a rate is rendered as by `f'{rate*100:.1f}'`: the percentage
rounded to one decimal place. -/
def pctOneDecimal (r : ℚ) : ℚ := (round (r * 100 * 10) : ℚ) / 10

/-- The validated-input precondition the engine assumes of a single record:
non-negative amount, a known kind, and a plausible calendar date. -/
def ValidTx (t : Transaction) : Prop :=
  0 ≤ t.amount ∧ (t.ttype = "income" ∨ t.ttype = "expense") ∧
    1 ≤ t.month ∧ t.month ≤ 12 ∧ 1 ≤ t.day ∧ t.day ≤ 31

instance (t : Transaction) : Decidable (ValidTx t) := by
  unfold ValidTx
  infer_instance

/-- Recognizer of the top-category (`High spend in …`) messages. -/
def isHighSpendMsg : RecMsg → Bool
  | RecMsg.highSpend _ _ => true
  | _ => false

/-- Shorthand for building concrete example transactions. -/
def tx (y m : ℕ) (a : ℚ) (ty c : String) : Transaction :=
  { year := y, month := m, day := 1, amount := a, ttype := ty, category := c }

/-- Two expense months totalling `[100, 200]`. -/
def exTwoMonths : List Transaction :=
  [tx 2024 1 100 "expense" "Other", tx 2024 2 200 "expense" "Other"]

/-- A single expense month totalling `42`. -/
def exOneMonth : List Transaction := [tx 2024 3 42 "expense" "Food"]

/-- Two expense months totalling `[500, 100]` (strongly downward trend). -/
def exDownward : List Transaction :=
  [tx 2024 1 500 "expense" "Other", tx 2024 2 100 "expense" "Other"]

/-- Income `1000` and expense `800` in one month. -/
def exSavings : List Transaction :=
  [tx 2024 1 1000 "income" "Salary", tx 2024 1 800 "expense" "Rent"]

/-- Category totals `{Food: 500, Rent: 1200, Travel: 300, Other: 50}`. -/
def exCategories : List Transaction :=
  [tx 2024 1 500 "expense" "Food", tx 2024 1 1200 "expense" "Rent",
   tx 2024 1 300 "expense" "Travel", tx 2024 1 50 "expense" "Other"]

/-- Monthly expense series `[100, 100, 100, 300]`. -/
def exVolatile : List Transaction :=
  [tx 2024 1 100 "expense" "Other", tx 2024 2 100 "expense" "Other",
   tx 2024 3 100 "expense" "Other", tx 2024 4 300 "expense" "Other"]

/-- Monthly expense series `[100, 100, 100, 110]`. -/
def exCalm : List Transaction :=
  [tx 2024 1 100 "expense" "Other", tx 2024 2 100 "expense" "Other",
   tx 2024 3 100 "expense" "Other", tx 2024 4 110 "expense" "Other"]

/-- `exTwoMonths` with the two records swapped. -/
def exShuffled : List Transaction :=
  [tx 2024 2 200 "expense" "Other", tx 2024 1 100 "expense" "Other"]

/-- A small validated mixed list: income `1000` and expenses `300`, `400` in
two months. -/
def exMixed : List Transaction :=
  [tx 2024 1 1000 "income" "Salary", tx 2024 1 300 "expense" "Food",
   tx 2024 2 400 "expense" "Rent"]

/-! ### Helper lemmas about the aggregation pipeline -/

theorem monthlySeries_of_expenses_nil (txs : List Transaction) (h : expenses txs = []) :
    monthlySeries txs = [] := by
  simp [monthlySeries, monthKeys, h, List.insertionSort]

theorem monthlySeries_length_eq (txs : List Transaction) :
    (monthlySeries txs).length = ((expenses txs).map ymKey).dedup.length := by
  simp only [monthlySeries, List.length_map, monthKeys]
  exact (List.perm_insertionSort _ _).length_eq

theorem monthlySeries_ne_nil (txs : List Transaction) (h : expenses txs ≠ []) :
    monthlySeries txs ≠ [] := by
  intro hc
  apply h
  have hlen : ((expenses txs).map ymKey).dedup.length = 0 := by
    rw [← monthlySeries_length_eq, hc]; rfl
  have h1 : ((expenses txs).map ymKey).dedup = [] := List.eq_nil_of_length_eq_zero hlen
  have h2 : (expenses txs).map ymKey = [] := (List.dedup_eq_nil _).mp h1
  exact List.map_eq_nil_iff.mp h2

theorem snd_of_mem_monthlySeries (txs : List Transaction) (p : ℕ × ℚ)
    (hp : p ∈ monthlySeries txs) : p.2 = monthTotal txs p.1 := by
  simp only [monthlySeries, List.mem_map] at hp
  obtain ⟨k, -, rfl⟩ := hp
  rfl

theorem monthTotal_nonneg (txs : List Transaction) (h : ∀ t ∈ txs, 0 ≤ t.amount) (k : ℕ) :
    0 ≤ monthTotal txs k := by
  apply List.sum_nonneg
  intro x hx
  simp only [List.mem_map, List.mem_filter, expenses] at hx
  obtain ⟨t, ⟨⟨ht, -⟩, -⟩, rfl⟩ := hx
  exact h t ht

theorem monthKeys_perm_eq {txs txs' : List Transaction} (h : txs.Perm txs') :
    monthKeys txs = monthKeys txs' := by
  have he : (expenses txs).Perm (expenses txs') := h.filter _
  have hk : ((expenses txs).map ymKey).dedup.Perm ((expenses txs').map ymKey).dedup :=
    (he.map ymKey).dedup
  refine List.eq_of_perm_of_sorted (r := ((· ≤ ·) : ℕ → ℕ → Prop)) ?_ ?_ ?_
  · exact (List.perm_insertionSort _ _).trans (hk.trans (List.perm_insertionSort _ _).symm)
  · exact List.sorted_insertionSort _ _
  · exact List.sorted_insertionSort _ _

theorem monthTotal_perm_eq {txs txs' : List Transaction} (h : txs.Perm txs') (k : ℕ) :
    monthTotal txs k = monthTotal txs' k := by
  have he : (expenses txs).Perm (expenses txs') := h.filter _
  exact ((he.filter _).map Transaction.amount).sum_eq

theorem monthlySeries_perm_eq {txs txs' : List Transaction} (h : txs.Perm txs') :
    monthlySeries txs = monthlySeries txs' := by
  unfold monthlySeries
  rw [monthKeys_perm_eq h]
  exact List.map_congr_left (fun k _ => by rw [monthTotal_perm_eq h k])

theorem expenses_eq_nil_iff_perm {txs txs' : List Transaction} (h : txs.Perm txs') :
    expenses txs = [] ↔ expenses txs' = [] := by
  have he : (expenses txs).Perm (expenses txs') := h.filter _
  constructor <;> intro hn
  · exact (hn ▸ he).symm.eq_nil ▸ rfl
  · exact ((hn ▸ he.symm).symm.eq_nil) ▸ rfl

/-! ### The positional index sums and the least-squares closed form -/

theorem sum_idx (k : ℕ) :
    ((List.range k).map (fun i : ℕ => (i : ℚ) + 1)).sum = (k : ℚ) * ((k : ℚ) + 1) / 2 := by
  induction k with
  | zero => simp
  | succ n ih =>
    rw [List.range_succ, List.map_append, List.sum_append, ih]
    simp only [List.map_cons, List.map_nil, List.sum_cons, List.sum_nil]
    push_cast
    ring

theorem sum_idx_sq (k : ℕ) :
    ((List.range k).map (fun i : ℕ => ((i : ℚ) + 1) * ((i : ℚ) + 1))).sum
      = (k : ℚ) * ((k : ℚ) + 1) * (2 * (k : ℚ) + 1) / 6 := by
  induction k with
  | zero => simp
  | succ n ih =>
    rw [List.range_succ, List.map_append, List.sum_append, ih]
    simp only [List.map_cons, List.map_nil, List.sum_cons, List.sum_nil]
    push_cast
    ring

theorem idxPoints_length (ys : List ℚ) : (idxPoints ys).length = ys.length := by
  simp [idxPoints]

theorem idxPoints_map_fst (ys : List ℚ) :
    (idxPoints ys).map Prod.fst = (List.range ys.length).map (fun i : ℕ => (i : ℚ) + 1) := by
  apply List.map_fst_zip
  simp

theorem idxPoints_map_snd (ys : List ℚ) : (idxPoints ys).map Prod.snd = ys := by
  apply List.map_snd_zip
  simp

theorem sumX_idx (ys : List ℚ) :
    sumX (idxPoints ys) = ((List.range ys.length).map (fun i : ℕ => (i : ℚ) + 1)).sum := by
  unfold sumX
  rw [idxPoints_map_fst]

theorem sumY_idx (ys : List ℚ) : sumY (idxPoints ys) = ys.sum := by
  unfold sumY
  rw [idxPoints_map_snd]

theorem sumXX_idx (ys : List ℚ) :
    sumXX (idxPoints ys)
      = (((List.range ys.length).map (fun i : ℕ => (i : ℚ) + 1)).map (fun x => x * x)).sum := by
  unfold sumXX
  rw [← idxPoints_map_fst, List.map_map]
  rfl

theorem sumXX_idx_closed (ys : List ℚ) :
    sumXX (idxPoints ys)
      = (ys.length : ℚ) * ((ys.length : ℚ) + 1) * (2 * (ys.length : ℚ) + 1) / 6 := by
  rw [sumXX_idx, List.map_map, ← sum_idx_sq]
  rfl

theorem olsDet_idx (ys : List ℚ) :
    olsDet (idxPoints ys)
      = (ys.length : ℚ) ^ 2 * ((ys.length : ℚ) ^ 2 - 1) / 12 := by
  unfold olsDet
  rw [idxPoints_length, sumX_idx, sumXX_idx_closed, sum_idx]
  ring

theorem olsDet_idx_pos (ys : List ℚ) (h : 2 ≤ ys.length) : 0 < olsDet (idxPoints ys) := by
  rw [olsDet_idx]
  have h2 : (2 : ℚ) ≤ (ys.length : ℚ) := by exact_mod_cast h
  have h4 : (4 : ℚ) ≤ (ys.length : ℚ) ^ 2 := by nlinarith
  have hnum : 0 < (ys.length : ℚ) ^ 2 * ((ys.length : ℚ) ^ 2 - 1) :=
    mul_pos (by nlinarith) (by nlinarith)
  exact div_pos hnum (by norm_num)

theorem olsPredictNext_eq_spec (ys : List ℚ) : olsPredictNext ys = specOLSForecast ys := by
  simp only [olsPredictNext, specOLSForecast, olsIntercept, olsSlope, olsDet,
    idxPoints_length, sumX_idx, sumY_idx, sumXX_idx]
  rw [show sumXY (idxPoints ys)
      = ((((List.range ys.length).map (fun i : ℕ => (i : ℚ) + 1)).zip ys).map
          (fun p => p.1 * p.2)).sum from rfl]
  ring

/-! ### Least-squares optimality of the closed-form fit -/

theorem ssr_eq_sums (pts : List (ℚ × ℚ)) (a b : ℚ) :
    ssr pts a b = sumYY pts - 2 * a * sumXY pts - 2 * b * sumY pts + a ^ 2 * sumXX pts
      + 2 * a * b * sumX pts + (pts.length : ℚ) * b ^ 2 := by
  induction pts with
  | nil => simp [ssr, sumYY, sumXY, sumY, sumXX, sumX]
  | cons p l ih =>
    simp only [ssr, sumYY, sumXY, sumY, sumXX, sumX, List.map_cons, List.sum_cons,
      List.length_cons] at ih ⊢
    rw [ih]
    push_cast
    ring

theorem ssr_ols_min (pts : List (ℚ × ℚ)) (a b : ℚ) (hn : 0 < (pts.length : ℚ))
    (hD : 0 < olsDet pts) :
    ssr pts (olsSlope pts) (olsIntercept pts) ≤ ssr pts a b := by
  have hn' : (pts.length : ℚ) ≠ 0 := ne_of_gt hn
  have hD' : olsDet pts ≠ 0 := ne_of_gt hD
  have eq2 : (pts.length : ℚ) * olsIntercept pts = sumY pts - olsSlope pts * sumX pts := by
    unfold olsIntercept
    field_simp
  have hDs : ((pts.length : ℚ) * sumXX pts - sumX pts * sumX pts) * olsSlope pts
      = (pts.length : ℚ) * sumXY pts - sumX pts * sumY pts := by
    have : olsDet pts * olsSlope pts
        = (pts.length : ℚ) * sumXY pts - sumX pts * sumY pts := by
      unfold olsSlope
      field_simp
    unfold olsDet at this
    exact this
  have key : (pts.length : ℚ) * (ssr pts a b - ssr pts (olsSlope pts) (olsIntercept pts))
      = (sumX pts * (a - olsSlope pts) + (pts.length : ℚ) * (b - olsIntercept pts)) ^ 2
        + olsDet pts * (a - olsSlope pts) ^ 2 := by
    rw [ssr_eq_sums, ssr_eq_sums]
    unfold olsDet
    linear_combination (2 * (a - olsSlope pts)) * hDs
      + (2 * (a - olsSlope pts) * sumX pts
          + 2 * (pts.length : ℚ) * (b - olsIntercept pts)) * eq2
  have h0 : 0 ≤ (pts.length : ℚ) * (ssr pts a b - ssr pts (olsSlope pts) (olsIntercept pts)) := by
    rw [key]
    have h1 : 0 ≤ (sumX pts * (a - olsSlope pts)
        + (pts.length : ℚ) * (b - olsIntercept pts)) ^ 2 := sq_nonneg _
    have h2 : 0 ≤ olsDet pts * (a - olsSlope pts) ^ 2 := mul_nonneg hD.le (sq_nonneg _)
    linarith
  nlinarith [h0, hn]

/-! ### The checked variants never fail -/

theorem exists_getLast?_of_ne_nil {α : Type} {l : List α} (h : l ≠ []) :
    ∃ p, l.getLast? = some p := by
  cases hq : l.getLast? with
  | none => exact absurd (List.getLast?_eq_none_iff.mp hq) h
  | some p => exact ⟨p, rfl⟩

theorem olsPredictNextChecked_eq (ys : List ℚ) (h : 2 ≤ ys.length) :
    olsPredictNextChecked ys = some (olsPredictNext ys) := by
  have hn : ((ys.length : ℚ)) ≠ 0 := by
    have : ys.length ≠ 0 := by omega
    exact_mod_cast Nat.cast_ne_zero.mpr this
  have hD : olsDet (idxPoints ys) ≠ 0 := ne_of_gt (olsDet_idx_pos ys h)
  have hDc : (ys.length : ℚ)
        * (((List.range ys.length).map (fun i : ℕ => (i : ℚ) + 1)).map (fun x => x * x)).sum
      - ((List.range ys.length).map (fun i : ℕ => (i : ℚ) + 1)).sum
        * ((List.range ys.length).map (fun i : ℕ => (i : ℚ) + 1)).sum ≠ 0 := by
    have hrw : olsDet (idxPoints ys)
        = (ys.length : ℚ)
            * (((List.range ys.length).map (fun i : ℕ => (i : ℚ) + 1)).map (fun x => x * x)).sum
          - ((List.range ys.length).map (fun i : ℕ => (i : ℚ) + 1)).sum
            * ((List.range ys.length).map (fun i : ℕ => (i : ℚ) + 1)).sum := by
      unfold olsDet
      rw [idxPoints_length, sumX_idx, sumXX_idx]
    rwa [hrw] at hD
  simp only [olsPredictNextChecked, olsPredictNext, checkedDiv, if_neg hDc, if_neg hn]

theorem predictChecked_eq (txs : List Transaction) :
    predictChecked txs = some (predict_next_month_expense txs) := by
  by_cases h0 : txs = []
  · simp [predictChecked, predict_next_month_expense, h0]
  by_cases he : expenses txs = []
  · simp [predictChecked, predict_next_month_expense, h0, he]
  have hm : monthlySeries txs ≠ [] := monthlySeries_ne_nil txs he
  by_cases hlen : (monthlySeries txs).length < 2
  · obtain ⟨p, hp⟩ := exists_getLast?_of_ne_nil hm
    simp [predictChecked, predict_next_month_expense, h0, he, hlen, hp, lastSnd]
  · have h2 : 2 ≤ ((monthlySeries txs).map Prod.snd).length := by
      rw [List.length_map]; omega
    simp [predictChecked, predict_next_month_expense, h0, he, hlen,
      olsPredictNextChecked_eq _ h2]

theorem savingsPartChecked_eq (txs : List Transaction) :
    savingsPartChecked txs = some (savingsPart txs) := by
  by_cases hti : 0 < totalIncome txs
  · have : totalIncome txs ≠ 0 := ne_of_gt hti
    simp [savingsPartChecked, savingsPart, checkedDiv, hti, this]
  · simp [savingsPartChecked, savingsPart, hti]

theorem volPartChecked_eq (txs : List Transaction) :
    volPartChecked txs = some (volPart txs) := by
  by_cases he : expenses txs = []
  · simp [volPartChecked, volPart, he]
  by_cases hlen : 2 ≤ (monthlySeries txs).length
  · have hm : monthlySeries txs ≠ [] := monthlySeries_ne_nil txs he
    obtain ⟨p, hp⟩ := exists_getLast?_of_ne_nil hm
    have hpriorNat : (monthlySeries txs).length - 1 ≠ 0 := by omega
    have hprior : (((monthlySeries txs).dropLast.map Prod.snd).length : ℚ) ≠ 0 := by
      rw [List.length_map, List.length_dropLast]
      exact_mod_cast Nat.cast_ne_zero.mpr hpriorNat
    simp [volPartChecked, volPart, he, hlen, hp, checkedDiv, hprior, hpriorNat, volCond,
      lastSnd]
  · simp [volPartChecked, volPart, he, hlen]

theorem forePartChecked_eq (txs : List Transaction) :
    forePartChecked txs = some (forePart txs) := by
  simp only [forePartChecked, forePart, predictChecked_eq]

theorem generateRecommendationsChecked_eq (txs : List Transaction) :
    generateRecommendationsChecked txs = some (generate_recommendations txs) := by
  by_cases h0 : txs = []
  · simp [generateRecommendationsChecked, generate_recommendations, h0]
  · simp only [generateRecommendationsChecked, generate_recommendations, if_neg h0,
      savingsPartChecked_eq, volPartChecked_eq, forePartChecked_eq]

/-! ### Shape of the recommendation list -/

theorem savingsPart_length (txs : List Transaction) : (savingsPart txs).length = 1 := by
  unfold savingsPart
  split <;> rfl

theorem forePart_length (txs : List Transaction) : (forePart txs).length = 1 := by
  unfold forePart
  split <;> rfl

theorem volPart_length_le (txs : List Transaction) : (volPart txs).length ≤ 1 := by
  unfold volPart
  split_ifs <;> simp

theorem catsPart_length_le (txs : List Transaction) : (catsPart txs).length ≤ 3 := by
  unfold catsPart top3
  rw [List.length_map]
  exact List.length_take_le _ _

theorem savingsPart_filter_highSpend (txs : List Transaction) :
    (savingsPart txs).filter isHighSpendMsg = [] := by
  unfold savingsPart
  split <;> rfl

theorem volPart_filter_highSpend (txs : List Transaction) :
    (volPart txs).filter isHighSpendMsg = [] := by
  unfold volPart
  split_ifs <;> rfl

theorem forePart_filter_highSpend (txs : List Transaction) :
    (forePart txs).filter isHighSpendMsg = [] := by
  unfold forePart
  split <;> rfl

theorem catsPart_filter_highSpend (txs : List Transaction) :
    (catsPart txs).filter isHighSpendMsg = catsPart txs := by
  unfold catsPart
  rw [List.filter_map]
  congr 1
  refine List.filter_eq_self.mpr (fun a _ => rfl)

theorem catSeries_sorted (txs : List Transaction) :
    List.Sorted (fun p q : String × ℚ => q.2 ≤ p.2) (catSeries txs) := by
  haveI : IsTotal (String × ℚ) (fun p q => q.2 ≤ p.2) := ⟨fun a b => le_total b.2 a.2⟩
  haveI : IsTrans (String × ℚ) (fun p q => q.2 ≤ p.2) := ⟨fun _ _ _ h1 h2 => le_trans h2 h1⟩
  exact List.sorted_insertionSort _ _

theorem vol_not_mem_savingsPart (txs : List Transaction) :
    RecMsg.volatilityWarning ∉ savingsPart txs := by
  unfold savingsPart
  split <;> simp

theorem vol_not_mem_catsPart (txs : List Transaction) :
    RecMsg.volatilityWarning ∉ catsPart txs := by
  unfold catsPart
  simp

theorem vol_not_mem_forePart (txs : List Transaction) :
    RecMsg.volatilityWarning ∉ forePart txs := by
  unfold forePart
  split <;> simp

theorem vol_mem_volPart_iff (txs : List Transaction) :
    RecMsg.volatilityWarning ∈ volPart txs ↔
      2 ≤ (monthlySeries txs).length ∧ volCond (monthlySeries txs) := by
  unfold volPart
  split_ifs with h1 h2 h3
  · rw [monthlySeries_of_expenses_nil txs h1]
    simp
  · simp [h2, h3]
  · simp [h3]
  · simp [h2]


/-! ### The claims -/

/-- C1: for every transaction list whose monthly expense series has two or
more points, `predict_next_month_expense` is the ordinary least-squares
linear regression of the monthly totals against the positional index
`1..n`, evaluated at `n + 1` and clamped at `0`; the closed-form fit is the
genuine least-squares minimizer, and the two-month series `[100, 200]`
yields exactly `300`. -/
theorem C1_ols_forecast :
    (∀ txs : List Transaction, 2 ≤ (monthlySeries txs).length →
      predict_next_month_expense txs
        = max (specOLSForecast ((monthlySeries txs).map Prod.snd)) 0)
  ∧ (∀ ys : List ℚ, 2 ≤ ys.length → ∀ a b : ℚ,
      ssr (idxPoints ys) (olsSlope (idxPoints ys)) (olsIntercept (idxPoints ys))
        ≤ ssr (idxPoints ys) a b)
  ∧ predict_next_month_expense exTwoMonths = 300 := by
  refine ⟨?_, ?_, by with_unfolding_all decide⟩
  · intro txs h2
    have hm : monthlySeries txs ≠ [] := by
      intro hc
      rw [hc] at h2
      simp at h2
    have he : expenses txs ≠ [] := by
      intro hc
      exact hm (monthlySeries_of_expenses_nil txs hc)
    have ht : txs ≠ [] := by
      intro hc
      subst hc
      exact he rfl
    simp only [predict_next_month_expense, if_neg ht, if_neg he]
    rw [if_neg (by omega : ¬ (monthlySeries txs).length < 2)]
    rw [olsPredictNext_eq_spec]
  · intro ys h2 a b
    apply ssr_ols_min
    · rw [idxPoints_length]
      have : 0 < ys.length := by omega
      exact_mod_cast this
    · exact olsDet_idx_pos ys h2

/-- Witness for C1 at the concrete two-month series. -/
theorem C1_ols_forecast_witness :
    predict_next_month_expense exTwoMonths
      = max (specOLSForecast ((monthlySeries exTwoMonths).map Prod.snd)) 0 :=
  C1_ols_forecast.1 exTwoMonths (by with_unfolding_all decide)

/-- C2: for every transaction list whose monthly expense series is a single
point with total `x`, `predict_next_month_expense` returns exactly `x`. -/
theorem C2_single_month (txs : List Transaction) (k : ℕ) (x : ℚ)
    (h : monthlySeries txs = [(k, x)]) :
    predict_next_month_expense txs = x := by
  have he : expenses txs ≠ [] := by
    intro hc
    rw [monthlySeries_of_expenses_nil txs hc] at h
    exact absurd h (by simp)
  have ht : txs ≠ [] := by
    intro hc
    subst hc
    exact he rfl
  simp only [predict_next_month_expense, if_neg ht, if_neg he, h]
  simp [lastSnd]

/-- Witness for C2: a single expense month totalling `42` forecasts `42`. -/
theorem C2_single_month_witness :
    monthlySeries exOneMonth = [(202403, 42)]
  ∧ predict_next_month_expense exOneMonth = 42 :=
  ⟨by with_unfolding_all decide,
   C2_single_month exOneMonth 202403 42 (by with_unfolding_all decide)⟩

/-- C3: the empty transaction list forecasts `0`, yields exactly the single
guard recommendation, and neither computation can fail (the checked variants
return `some`). -/
theorem C3_empty_input :
    predict_next_month_expense [] = 0
  ∧ generate_recommendations [] = [RecMsg.addDataGuard]
  ∧ predictChecked [] = some 0
  ∧ generateRecommendationsChecked [] = some [RecMsg.addDataGuard] := by
  with_unfolding_all decide

/-- C4: with non-negative amounts the forecast is never negative, and the
strongly downward two-month series `[500, 100]` clamps to exactly `0`. -/
theorem C4_forecast_nonneg :
    (∀ txs : List Transaction, (∀ t ∈ txs, 0 ≤ t.amount) →
      0 ≤ predict_next_month_expense txs)
  ∧ predict_next_month_expense exDownward = 0 := by
  refine ⟨?_, by with_unfolding_all decide⟩
  intro txs ha
  by_cases ht : txs = []
  · simp [predict_next_month_expense, ht]
  by_cases he : expenses txs = []
  · simp [predict_next_month_expense, ht, he]
  by_cases hlen : (monthlySeries txs).length < 2
  · have hm : monthlySeries txs ≠ [] := monthlySeries_ne_nil txs he
    obtain ⟨p, hp⟩ := exists_getLast?_of_ne_nil hm
    obtain ⟨hne, hpe⟩ :=
      List.mem_getLast?_eq_getLast (show p ∈ (monthlySeries txs).getLast? from hp)
    have hpmem : p ∈ monthlySeries txs := hpe ▸ List.getLast_mem hne
    have hnn : 0 ≤ p.2 := by
      rw [snd_of_mem_monthlySeries txs p hpmem]
      exact monthTotal_nonneg txs ha p.1
    simp only [predict_next_month_expense, if_neg ht, if_neg he, if_pos hlen, lastSnd, hp]
    exact hnn
  · simp only [predict_next_month_expense, if_neg ht, if_neg he, if_neg hlen]
    exact le_max_right _ _

/-- Witness for C4 at the downward-trending concrete series. -/
theorem C4_forecast_nonneg_witness :
    (∀ t ∈ exDownward, 0 ≤ t.amount) ∧ 0 ≤ predict_next_month_expense exDownward :=
  ⟨by with_unfolding_all decide,
   C4_forecast_nonneg.1 exDownward (by with_unfolding_all decide)⟩

/-- C5: for every non-empty transaction list the first recommendation is the
savings-rate message with rate `max ((income − expense)/income) 0` when
`total_income > 0`, and the add-income prompt when `total_income = 0`; for
income `1000` and expense `800` the rate is `1/5`, rendered with one decimal
place as `20.0` percent. -/
theorem C5_savings_rate :
    (∀ txs : List Transaction, txs ≠ [] →
      (0 < totalIncome txs →
        (generate_recommendations txs).head?
          = some (RecMsg.savingsRate
              (max ((totalIncome txs - totalExpense txs) / totalIncome txs) 0)))
      ∧ (totalIncome txs = 0 →
        (generate_recommendations txs).head? = some RecMsg.addIncomeForRate))
  ∧ (generate_recommendations exSavings).head? = some (RecMsg.savingsRate (1 / 5))
  ∧ pctOneDecimal (1 / 5) = 20 := by
  refine ⟨?_, by with_unfolding_all decide, by norm_num [pctOneDecimal]⟩
  intro txs ht
  constructor
  · intro hti
    rw [generate_recommendations, if_neg ht]
    unfold savingsPart
    rw [if_pos hti]
    simp
  · intro hti
    rw [generate_recommendations, if_neg ht]
    unfold savingsPart
    rw [if_neg (by simp [hti])]
    simp

/-- Witness for C5 at the concrete income/expense pair `1000`/`800`. -/
theorem C5_savings_rate_witness :
    (generate_recommendations exSavings).head?
      = some (RecMsg.savingsRate
          (max ((totalIncome exSavings - totalExpense exSavings) / totalIncome exSavings) 0)) :=
  (C5_savings_rate.1 exSavings (by with_unfolding_all decide)).1
    (by with_unfolding_all decide)

/-- C6: for every non-empty transaction list the category messages are
exactly the up-to-three highest-total categories, in descending order of
summed amount (the per-category series is sorted descending and the first
three are taken); for totals Food 500, Rent 1200, Travel 300, Other 50 the
order is Rent, Food, Travel. -/
theorem C6_top_categories :
    (∀ txs : List Transaction, txs ≠ [] →
      (generate_recommendations txs).filter isHighSpendMsg
        = (top3 txs).map (fun p => RecMsg.highSpend p.1 p.2))
  ∧ (∀ txs : List Transaction,
      List.Sorted (fun p q : String × ℚ => q.2 ≤ p.2) (catSeries txs)
      ∧ (top3 txs).length ≤ 3)
  ∧ (generate_recommendations exCategories).filter isHighSpendMsg
      = [RecMsg.highSpend "Rent" 1200, RecMsg.highSpend "Food" 500,
         RecMsg.highSpend "Travel" 300] := by
  refine ⟨?_, fun txs => ⟨catSeries_sorted txs, List.length_take_le _ _⟩,
    by with_unfolding_all decide⟩
  intro txs ht
  rw [generate_recommendations, if_neg ht]
  rw [List.filter_append, List.filter_append, List.filter_append,
    savingsPart_filter_highSpend, volPart_filter_highSpend, forePart_filter_highSpend,
    catsPart_filter_highSpend]
  simp [catsPart]

/-- Witness for C6 at the concrete four-category list. -/
theorem C6_top_categories_witness :
    (generate_recommendations exCategories).filter isHighSpendMsg
      = (top3 exCategories).map (fun p => RecMsg.highSpend p.1 p.2) :=
  C6_top_categories.1 exCategories (by with_unfolding_all decide)

/-- C7: for every non-empty transaction list the volatility warning is
emitted iff the monthly expense series has at least two points and the most
recent month strictly exceeds `1.2 ×` the mean of all prior months; the
series `[100,100,100,300]` fires and `[100,100,100,110]` does not. -/
theorem C7_volatility :
    (∀ txs : List Transaction, txs ≠ [] →
      (RecMsg.volatilityWarning ∈ generate_recommendations txs ↔
        2 ≤ (monthlySeries txs).length ∧
          (12 : ℚ) / 10 * (((monthlySeries txs).dropLast.map Prod.snd).sum
              / ((((monthlySeries txs).dropLast.map Prod.snd).length : ℚ)))
            < lastSnd (monthlySeries txs)))
  ∧ RecMsg.volatilityWarning ∈ generate_recommendations exVolatile
  ∧ RecMsg.volatilityWarning ∉ generate_recommendations exCalm := by
  refine ⟨?_, by with_unfolding_all decide, by with_unfolding_all decide⟩
  intro txs ht
  rw [generate_recommendations, if_neg ht]
  simp only [List.mem_append]
  simp [vol_not_mem_savingsPart, vol_not_mem_catsPart, vol_not_mem_forePart,
    vol_mem_volPart_iff, volCond]

/-- Witness for C7: the condition fires on the concrete volatile series. -/
theorem C7_volatility_witness :
    RecMsg.volatilityWarning ∈ generate_recommendations exVolatile :=
  (C7_volatility.1 exVolatile (by with_unfolding_all decide)).mpr
    ⟨by with_unfolding_all decide, by with_unfolding_all decide⟩

/-- C8: the forecast is independent of the order of the transaction list. -/
theorem C8_order_independent (txs txs' : List Transaction) (h : txs.Perm txs') :
    predict_next_month_expense txs' = predict_next_month_expense txs := by
  by_cases h0 : txs = []
  · subst h0
    rw [h.symm.eq_nil]
  · have h0' : txs' ≠ [] := by
      intro hc
      exact h0 ((hc ▸ h).eq_nil)
    by_cases he : expenses txs = []
    · have he' : expenses txs' = [] := (expenses_eq_nil_iff_perm h).mp he
      simp [predict_next_month_expense, h0, h0', he, he']
    · have he' : expenses txs' ≠ [] := fun hc => he ((expenses_eq_nil_iff_perm h).mpr hc)
      simp only [predict_next_month_expense, if_neg h0, if_neg h0', if_neg he, if_neg he',
        monthlySeries_perm_eq h]

/-- Witness for C8: swapping the two records of `exTwoMonths` leaves the
forecast unchanged. -/
theorem C8_order_independent_witness :
    predict_next_month_expense exTwoMonths = predict_next_month_expense exShuffled :=
  C8_order_independent exShuffled exTwoMonths (by with_unfolding_all decide)

/-- C9: on validated input (non-negative amounts, known kinds, plausible
dates) neither engine entry point can fail: every division and every
`iloc[-1]` access is guarded, so the checked variants return `some` of the
unchecked results. -/
theorem C9_no_exceptions (txs : List Transaction) (_h : ∀ t ∈ txs, ValidTx t) :
    generateRecommendationsChecked txs = some (generate_recommendations txs)
  ∧ predictChecked txs = some (predict_next_month_expense txs) :=
  ⟨generateRecommendationsChecked_eq txs, predictChecked_eq txs⟩

/-- Witness for C9 at a concrete validated mixed list. -/
theorem C9_no_exceptions_witness :
    (∀ t ∈ exMixed, ValidTx t)
  ∧ generateRecommendationsChecked exMixed = some (generate_recommendations exMixed) :=
  ⟨by with_unfolding_all decide,
   (C9_no_exceptions exMixed (by with_unfolding_all decide)).1⟩

/-- C10: for every non-empty transaction list the engine returns between 2
and 6 recommendations; the first is the savings-rate report or the
add-income prompt, and the last is the predicted-expense message (with or
without a savings target). -/
theorem C10_shape (txs : List Transaction) (h : txs ≠ []) :
    (2 ≤ (generate_recommendations txs).length
      ∧ (generate_recommendations txs).length ≤ 6)
  ∧ ((∃ r, (generate_recommendations txs).head? = some (RecMsg.savingsRate r))
      ∨ (generate_recommendations txs).head? = some RecMsg.addIncomeForRate)
  ∧ ((∃ p t, (generate_recommendations txs).getLast?
        = some (RecMsg.predictedWithTarget p t))
      ∨ ∃ p, (generate_recommendations txs).getLast?
        = some (RecMsg.predictedAddIncome p)) := by
  rw [generate_recommendations, if_neg h]
  refine ⟨⟨?_, ?_⟩, ?_, ?_⟩
  · simp only [List.length_append, savingsPart_length, forePart_length]
    omega
  · have hc := catsPart_length_le txs
    have hv := volPart_length_le txs
    simp only [List.length_append, savingsPart_length, forePart_length]
    omega
  · unfold savingsPart
    split_ifs with hti
    · exact Or.inl
        ⟨max ((totalIncome txs - totalExpense txs) / totalIncome txs) 0, by simp⟩
    · exact Or.inr (by simp)
  · have hf : forePart txs ≠ [] := by
      unfold forePart
      split <;> simp
    rw [List.getLast?_append_of_ne_nil _ hf]
    unfold forePart
    split_ifs
    · exact Or.inl ⟨predict_next_month_expense txs,
        max (totalIncome txs * (2 / 10)) 0, by simp⟩
    · exact Or.inr ⟨predict_next_month_expense txs, by simp⟩

/-- Witness for C10 at a concrete non-empty list. -/
theorem C10_shape_witness :
    2 ≤ (generate_recommendations exCalm).length
  ∧ (generate_recommendations exCalm).length ≤ 6 :=
  (C10_shape exCalm (by with_unfolding_all decide)).1
